import Mathlib

/-!
Verification development for the obsidian-live-share relay server.

The server code is embedded shallowly:
* `control-handler.ts` (control plane) as pure functions over a
  `ControlRoom` state, with sockets named by `Nat` ids and socket
  readyState given by an `isOpen : Nat → Bool` environment;
* `ws-handler.ts` (CRDT plane) as fanout functions and small transition
  systems for room creation, idle destruction and awareness tracking;
* `index.ts` (connection gateway) as a pure routing function;
* `persistence.ts` as operations on an association-list key-value store,
  with the external Yjs replica modelled as an op-set CRDT.
-/

namespace LiveShare

/-! ## Control plane data model (control-handler.ts) -/

/-- Effective permission of a control-channel participant
(`"read-write" | "read-only"` in the source). -/
inductive Perm
  | readWrite
  | readOnly
deriving DecidableEq, Repr

/-- Per-connection state kept in `ControlClient` (the `ws` field is the
map key in our embedding, so it is not repeated here). -/
structure ControlClient where
  userId : String
  displayName : String
  isHost : Bool
  approved : Bool
  permission : Perm
deriving DecidableEq, Repr

/-- Per-room control state: `clients` is the insertion-ordered
`Map<WebSocket, ControlClient>` keyed by socket id, `pendingApprovals`
the `Map<string, WebSocket>` from pending user-id to guest socket. -/
structure ControlRoom where
  clients : List (Nat × ControlClient)
  pendingApprovals : List (String × Nat)
deriving DecidableEq, Repr

/-- The subset of registry `Room` metadata the control handler reads
(`serverRoom?.hostUserId`, `serverRoom?.requireApproval`,
`serverRoom?.defaultPermission`). Optional-absent boolean fields are
falsy in JS, so `requireApproval` is a plain `Bool`. -/
structure ServerRoom where
  hostUserId : Option String
  requireApproval : Bool
  defaultPermission : Option Perm
deriving DecidableEq, Repr

/-- A parsed inbound JSON control message: the `type` string plus the
fields the handler reads, each `Option` because JS objects may omit
them (`undefined`). -/
structure CtrlMsg where
  type : String
  userId : Option String := none
  displayName : Option String := none
  avatarUrl : Option String := none
  approved : Option Bool := none
  permission : Option Perm := none
  targetUserId : Option String := none
deriving DecidableEq, Repr

/-- Outbound messages the control handler can emit: `relay m` is the raw
inbound data forwarded verbatim; the others are server-constructed JSON
(`sendTo` payloads). -/
inductive OutMsg
  | relay (m : CtrlMsg)
  | joinRequestFwd (userId displayName avatarUrl : String)
  | joinResponse (approved : Bool) (permission : Perm)
  | kicked
  | presenceLeave (userId : String)
deriving DecidableEq, Repr

/-- Whether an outbound message is the inbound data forwarded verbatim
(a broadcast/relay of a client message, as opposed to a
server-constructed reply). -/
def OutMsg.isRelay : OutMsg → Bool
  | .relay _ => true
  | _ => false

/-- `ALLOWED_TYPES` from control-handler.ts. -/
def ALLOWED_TYPES : List String :=
  ["file-op", "presence-update", "follow-update", "session-end",
   "join-request", "join-response", "focus-request", "summon", "kick"]

/-- JS `(x as string) || ""`. -/
def strOrEmpty (o : Option String) : String := o.getD ""

/-- JS truthiness of an optional string (`undefined` and `""` are falsy). -/
def strTruthy (o : Option String) : Bool :=
  match o with
  | some s => s != ""
  | none => false

/-- `serverRoom?.requireApproval` truthiness. -/
def roomRequiresApproval (r : Option ServerRoom) : Bool :=
  match r with
  | some sr => sr.requireApproval
  | none => false

/-- `serverRoom?.hostUserId` as an optional string. -/
def roomHostUserId (r : Option ServerRoom) : Option String :=
  r.bind (·.hostUserId)

/-- `room.clients.get(ws)`. -/
def getClient (room : ControlRoom) (sid : Nat) : Option ControlClient :=
  (room.clients.find? (fun p => p.1 == sid)).map (·.2)

/-- `room.clients.set(ws, c)` on an existing key: JS `Map.set` replaces
the value in place, preserving insertion order. -/
def setClient (room : ControlRoom) (sid : Nat) (c : ControlClient) : ControlRoom :=
  { room with clients := room.clients.map (fun p => if p.1 == sid then (sid, c) else p) }

/-- `room.clients.set(ws, c)` at connection time: appends when absent. -/
def addClient (room : ControlRoom) (sid : Nat) (c : ControlClient) : ControlRoom :=
  if (room.clients.find? (fun p => p.1 == sid)).isSome then setClient room sid c
  else { room with clients := room.clients ++ [(sid, c)] }

/-- `room.pendingApprovals.get(uid)`. -/
def pendingGet (room : ControlRoom) (uid : String) : Option Nat :=
  (room.pendingApprovals.find? (fun p => p.1 == uid)).map (·.2)

/-- `room.pendingApprovals.set(uid, ws)`. -/
def pendingSet (room : ControlRoom) (uid : String) (sid : Nat) : ControlRoom :=
  if (room.pendingApprovals.find? (fun p => p.1 == uid)).isSome then
    { room with pendingApprovals :=
        room.pendingApprovals.map (fun p => if p.1 == uid then (uid, sid) else p) }
  else
    { room with pendingApprovals := room.pendingApprovals ++ [(uid, sid)] }

/-- `room.pendingApprovals.delete(uid)`. -/
def pendingErase (room : ControlRoom) (uid : String) : ControlRoom :=
  { room with pendingApprovals := room.pendingApprovals.filter (fun p => p.1 != uid) }

/-- `findHost(room)`: first client (insertion order) with `isHost`. -/
def findHost (room : ControlRoom) : Option (Nat × ControlClient) :=
  room.clients.find? (fun p => p.2.isHost)

/-- `sendTo(ws, msg)`: sends only when the socket is OPEN. -/
def sendToSends (sid : Nat) (isOpen : Nat → Bool) (m : OutMsg) : List (Nat × OutMsg) :=
  if isOpen sid then [(sid, m)] else []

/-- `broadcast(room, data, exclude)`: every client other than `exclude`
that is approved and whose socket is OPEN receives `m`. -/
def broadcastSends (room : ControlRoom) (m : OutMsg) (exclude : Nat)
    (isOpen : Nat → Bool) : List (Nat × OutMsg) :=
  (room.clients.filter (fun p => p.1 != exclude && p.2.approved && isOpen p.1)).map
    (fun p => (p.1, m))

/-- Client record created at connection time in the `connection`
handler: unknown user, not host, `approved: true` (source comment:
"Default: approved (no approval required)"), permission
`serverRoom?.defaultPermission || "read-write"`. -/
def initClient (serverRoom : Option ServerRoom) : ControlClient :=
  { userId := ""
    displayName := ""
    isHost := false
    approved := true
    permission := (serverRoom.bind (·.defaultPermission)).getD Perm.readWrite }

/-- Result of handling one inbound control message: the new room state,
the list of (socket, message) sends, and the sockets `close()`d. -/
structure HandleResult where
  room : ControlRoom
  sends : List (Nat × OutMsg)
  closes : List Nat
deriving DecidableEq, Repr

/-- The sender's record after `join-request` records identity, with the
`approved` flag the branch assigns. -/
def identifiedClient (msg : CtrlMsg) (client : ControlClient) (ap : Bool) : ControlClient :=
  { client with userId := strOrEmpty msg.userId
                displayName := strOrEmpty msg.displayName
                approved := ap }

/-- The room after a `join-request` in a `requireApproval` room: the
sender's record is replaced and its (new) user-id keys an entry in
`pendingApprovals`. -/
def joinRequestRoom (room : ControlRoom) (sid : Nat) (msg : CtrlMsg)
    (client : ControlClient) : ControlRoom :=
  pendingSet (setClient room sid (identifiedClient msg client false)) (strOrEmpty msg.userId) sid

/-- `join-request` branch of the `message` listener: record identity;
with `requireApproval`, mark unapproved, register in `pendingApprovals`
and forward to the current host; otherwise auto-approve and reply to
the sender. -/
def joinRequestResult (serverRoom : Option ServerRoom) (isOpen : Nat → Bool)
    (room : ControlRoom) (sid : Nat) (msg : CtrlMsg) (client : ControlClient) : HandleResult :=
  if roomRequiresApproval serverRoom then
    match findHost (joinRequestRoom room sid msg client) with
    | some host =>
      ⟨joinRequestRoom room sid msg client,
       sendToSends host.1 isOpen
         (OutMsg.joinRequestFwd (strOrEmpty msg.userId) (strOrEmpty msg.displayName)
           (strOrEmpty msg.avatarUrl)),
       []⟩
    | none => ⟨joinRequestRoom room sid msg client, [], []⟩
  else
    ⟨setClient room sid (identifiedClient msg client true),
     sendToSends sid isOpen
       (OutMsg.joinResponse true (identifiedClient msg client true).permission), []⟩

/-- The target-client update performed by `join-response`:
`targetClient.approved = msg.approved as boolean` and, when
`msg.permission` is truthy, `targetClient.permission = msg.permission`. -/
def applyDecision (msg : CtrlMsg) (tc : ControlClient) : ControlClient :=
  { tc with approved := msg.approved.getD false
            permission := match msg.permission with
                          | some p => p
                          | none => tc.permission }

/-- `join-response` branch (host only): look up the pending guest,
remove it, apply the decision and reply to the guest. -/
def joinResponseResult (isOpen : Nat → Bool) (room : ControlRoom) (msg : CtrlMsg) :
    HandleResult :=
  match msg.userId with
  | none => ⟨room, [], []⟩
  | some tuid =>
    match pendingGet room tuid with
    | none => ⟨room, [], []⟩
    | some targetSid =>
      match getClient (pendingErase room tuid) targetSid with
      | none => ⟨pendingErase room tuid, [], []⟩
      | some tc =>
        ⟨setClient (pendingErase room tuid) targetSid (applyDecision msg tc),
         sendToSends targetSid isOpen
           (OutMsg.joinResponse (applyDecision msg tc).approved (applyDecision msg tc).permission),
         []⟩

/-- `kick` branch (host only): every connected socket whose user-id
equals the target gets `{type: "kicked"}` and is closed. -/
def kickResult (isOpen : Nat → Bool) (room : ControlRoom) (msg : CtrlMsg) : HandleResult :=
  let hits := room.clients.filter (fun p => some p.2.userId == msg.userId)
  ⟨room,
   (hits.filter (fun p => isOpen p.1)).map (fun p => (p.1, OutMsg.kicked)),
   hits.map (·.1)⟩

/-- `summon` branch with a specific target: send verbatim to the open
sockets whose user-id matches. -/
def summonResult (isOpen : Nat → Bool) (room : ControlRoom) (msg : CtrlMsg) : HandleResult :=
  ⟨room,
   (room.clients.filter (fun p => some p.2.userId == msg.targetUserId && isOpen p.1)).map
     (fun p => (p.1, OutMsg.relay msg)),
   []⟩

/-- The host-determination step of `presence-update`: run only when
the message carries a truthy user-id and the sender's recorded user-id
is still empty; with a (truthy) pinned `hostUserId` the sender is host
iff the announced id matches, else iff the room currently has no host. -/
def hostDetermined (serverRoom : Option ServerRoom) (room : ControlRoom)
    (msg : CtrlMsg) (client : ControlClient) : ControlClient :=
  if client.userId == "" then
    if strTruthy (roomHostUserId serverRoom) then
      { client with isHost := some (strOrEmpty msg.userId) == roomHostUserId serverRoom }
    else
      { client with isHost := (findHost room).isNone }
  else client

/-- The sender's record after the `presence-update` bookkeeping. -/
def presenceClient (serverRoom : Option ServerRoom) (room : ControlRoom)
    (msg : CtrlMsg) (client : ControlClient) : ControlClient :=
  if strTruthy msg.displayName then
    { (if strTruthy msg.userId then
         { hostDetermined serverRoom room msg client with userId := strOrEmpty msg.userId }
       else client) with displayName := strOrEmpty msg.displayName }
  else
    (if strTruthy msg.userId then
       { hostDetermined serverRoom room msg client with userId := strOrEmpty msg.userId }
     else client)

/-- Fall-through tail of the listener: `presence-update` identity and
host-determination bookkeeping, then the generic broadcast of the raw
message to all other approved open sockets. -/
def fallthroughResult (serverRoom : Option ServerRoom) (isOpen : Nat → Bool)
    (room : ControlRoom) (sid : Nat) (msg : CtrlMsg) (client : ControlClient) : HandleResult :=
  if msg.type == "presence-update" then
    ⟨setClient room sid (presenceClient serverRoom room msg client),
     broadcastSends (setClient room sid (presenceClient serverRoom room msg client))
       (OutMsg.relay msg) sid isOpen, []⟩
  else
    ⟨room, broadcastSends room (OutMsg.relay msg) sid isOpen, []⟩

/-- The body of the `message` listener in control-handler.ts, branch for
branch in source order. `sid` is the sending socket; a message from a
socket with no client record (impossible while connected) is a no-op. -/
def handleCtrlMessage (serverRoom : Option ServerRoom) (isOpen : Nat → Bool)
    (room : ControlRoom) (sid : Nat) (msg : CtrlMsg) : HandleResult :=
  if ¬ (ALLOWED_TYPES.contains msg.type) then ⟨room, [], []⟩
  else
    match getClient room sid with
    | none => ⟨room, [], []⟩
    | some client =>
      if msg.type == "join-request" then
        joinRequestResult serverRoom isOpen room sid msg client
      else if msg.type == "join-response" && client.isHost then
        joinResponseResult isOpen room msg
      else if msg.type == "kick" && client.isHost then
        kickResult isOpen room msg
      else if msg.type == "file-op" && client.permission == Perm.readOnly then
        ⟨room, [], []⟩
      else if ¬ client.approved then
        ⟨room, [], []⟩
      else if msg.type == "summon" && msg.targetUserId != some "__all__" then
        summonResult isOpen room msg
      else
        fallthroughResult serverRoom isOpen room sid msg client

/-- The `close` listener: withdraw the pending approval keyed by the
closing client's user-id, emit `presence-leave` to the remaining
approved sockets when it had a user-id, then drop the client. -/
def handleCtrlClose (room : ControlRoom) (sid : Nat) (isOpen : Nat → Bool) :
    ControlRoom × List (Nat × OutMsg) :=
  match getClient room sid with
  | some c =>
    let room1 := pendingErase room c.userId
    let sends :=
      if c.userId != "" then
        broadcastSends room1 (OutMsg.presenceLeave c.userId) sid isOpen
      else []
    ({ room1 with clients := room1.clients.filter (fun p => p.1 != sid) }, sends)
  | none =>
    ({ room with clients := room.clients.filter (fun p => p.1 != sid) }, [])

/-! ## CRDT plane fanout (ws-handler.ts)

Sockets are `Nat` ids; `isOpen` gives `readyState === WebSocket.OPEN`. -/

/-- `messageFileOp` relay in `handleMessage`: the opaque type-2 frame is
sent to every connected socket other than the sender that is OPEN.
There is no permission check on this channel. -/
def yjsFileOpSends (clients : List Nat) (isOpen : Nat → Bool) (sender : Nat) : List Nat :=
  clients.filter (fun c => c != sender && isOpen c)

/-- Recipients of the `doc.on("update")` fanout: every connected socket
other than the origin that is OPEN. -/
def docUpdateSends (clients : List Nat) (isOpen : Nat → Bool) (origin : Nat) : List Nat :=
  clients.filter (fun c => c != origin && isOpen c)

/-- Recipients of the `awareness.on("update")` fanout: every connected
OPEN socket, the origin included. -/
def awarenessSends (clients : List Nat) (isOpen : Nat → Bool) : List Nat :=
  clients.filter isOpen

/-! ## Awareness tracking (ws-handler.ts, claim C9)

The awareness replica (external `y-protocols/awareness`) is abstracted
to the set of awareness client-ids currently present; an update event
carries the `added` / `updated` / `removed` lists the library reports.
`index` embeds `clientAwarenessIds : Map<WebSocket, Set<number>>` as a
function from socket id to its tracked id set (`none` = no entry). -/

structure AwState where
  states : List Nat
  index : Nat → Option (List Nat)

/-- Events on one document: an awareness update with an origin tag
(`some sid` when `applyAwarenessUpdate` was called with the socket as
origin, `none` for library-internal origins), or a socket close. -/
inductive AwEvent
  | update (origin : Option Nat) (added updated removed : List Nat)
  | close (sid : Nat)
deriving DecidableEq, Repr

/-- One step of the awareness handlers: the `awareness.on("update")`
listener records every `added`/`updated` id against the originating
socket, and the state now holds the added/updated ids minus the removed
ones; the `close` listener removes the socket's tracked ids from the
awareness state (`removeAwarenessStates`) and deletes its index entry. -/
def awStep (s : AwState) (e : AwEvent) : AwState :=
  match e with
  | .update origin added updated removed =>
    let idx : Nat → Option (List Nat) :=
      match origin with
      | some o => fun t => if t = o then some (((s.index o).getD []) ++ added ++ updated) else s.index t
      | none => s.index
    { states := (s.states ++ added ++ updated).filter (fun i => !removed.contains i)
      index := idx }
  | .close sid =>
    let ids := (s.index sid).getD []
    { states := s.states.filter (fun i => !ids.contains i)
      index := fun t => if t = sid then none else s.index t }

/-- Run a trace of awareness events. -/
def awRun (s : AwState) (tr : List AwEvent) : AwState := tr.foldl awStep s

/-- The awareness state of a freshly created document. -/
def awInit : AwState := { states := [], index := fun _ => none }

/-- All ids that arrived in the `added` or `updated` list of an update
originated by socket `sid` during the trace. -/
def announcedBy (sid : Nat) (tr : List AwEvent) : List Nat :=
  match tr with
  | [] => []
  | .update (some o) added updated _ :: rest =>
    if o = sid then added ++ updated ++ announcedBy sid rest else announcedBy sid rest
  | _ :: rest => announcedBy sid rest

/-! ## Concurrent room creation (ws-handler.ts, claim C7)

`getOrCreateRoom` runs synchronously from its entry to
`pendingRooms.set` (no intervening `await`), so each caller's
check-and-register is one atomic step; the `await p.loadDoc` inside
`createRoom` is the only suspension point of a creation. Replica
constructions (`new Y.Doc()`) are numbered by `built`, and a `RoomState`
object is identified with the number of the construction that made it. -/

inductive CallerPhase
  | idle
  | creating (id : Nat)
  | waiting (id : Nat)
  | done (id : Nat)
deriving DecidableEq, Repr

structure CreateSt where
  roomState : Option Nat
  pending : Option Nat
  built : Nat
  callers : List CallerPhase
deriving DecidableEq, Repr

/-- Interleaved execution of `getOrCreateRoom` callers for one document
name: entering finds the existing state, joins the pending promise, or
constructs a replica and registers the pending promise; `finishLoad` is
the resumption after `await p.loadDoc` (sets `roomStates`, clears
`pendingRooms`, resolves the promise); `wake` is a waiter observing the
resolved promise. -/
inductive CreateStep : CreateSt → CreateSt → Prop
  | enterExisting (s : CreateSt) (i id : Nat) :
      s.callers.get? i = some .idle → s.roomState = some id →
      CreateStep s { s with callers := s.callers.set i (.done id) }
  | enterPending (s : CreateSt) (i id : Nat) :
      s.callers.get? i = some .idle → s.roomState = none → s.pending = some id →
      CreateStep s { s with callers := s.callers.set i (.waiting id) }
  | enterCreate (s : CreateSt) (i : Nat) :
      s.callers.get? i = some .idle → s.roomState = none → s.pending = none →
      CreateStep s { s with pending := some s.built, built := s.built + 1,
                            callers := s.callers.set i (.creating s.built) }
  | finishLoad (s : CreateSt) (i id : Nat) :
      s.callers.get? i = some (.creating id) →
      CreateStep s { s with roomState := some id, pending := none,
                            callers := s.callers.set i (.done id) }
  | wake (s : CreateSt) (i id : Nat) :
      s.callers.get? i = some (.waiting id) → s.roomState = some id →
      CreateStep s { s with callers := s.callers.set i (.done id) }

/-- Initial state: no room, no pending creation, `n` first-connect
attempts not yet entered. -/
def createInit (n : Nat) : CreateSt :=
  { roomState := none, pending := none, built := 0, callers := List.replicate n .idle }

/-- States reachable by interleaving any number of concurrent
first-connect attempts. -/
inductive CreateReach : CreateSt → Prop
  | init (n : Nat) : CreateReach (createInit n)
  | step {s s' : CreateSt} : CreateReach s → CreateStep s s' → CreateReach s'

/-! ## Idle destruction (ws-handler.ts, claim C8)

Lifecycle of one `RoomState` after creation. `timer` is the pending
`cleanupTimer` expiry and `emptySince` a ghost variable recording when
the client set last became (and stayed) empty. `cleanupRoom` is NOT one
atomic step with the timer callback: the callback checks
`clients.size === 0` and calls `cleanupRoom`, which `await`s
`p.persistDoc` before `doc.destroy()` and `roomStates.delete`.
`destroying` models that in-between window (persist awaited, room still
registered in `roomStates`), and `destroyed` the completion of
`cleanupRoom`. Node's single-threaded scheduling makes every other
handler body one atomic step; a timer fire can occur at any time at or
after its expiry, and a connection can arrive during the `destroying`
window, because `getOrCreateRoom` still finds the room in `roomStates`
then (clearing the already-fired timer is a no-op). -/

def idleGrace : Nat := 30000

structure RoomLife where
  now : Nat
  clients : List Nat
  timer : Option Nat
  emptySince : Option Nat
  destroying : Bool
  destroyed : Bool
deriving DecidableEq, Repr

inductive LifeStep : RoomLife → RoomLife → Prop
  | tick (s : RoomLife) : LifeStep s { s with now := s.now + 1 }
  | connect (s : RoomLife) (c : Nat) : s.destroyed = false →
      LifeStep s { s with clients := c :: s.clients, timer := none, emptySince := none }
  | close (s : RoomLife) (c : Nat) : s.destroyed = false → c ∈ s.clients →
      LifeStep s { s with
        clients := s.clients.erase c
        timer := if s.clients.erase c = [] then some (s.now + idleGrace) else s.timer
        emptySince := if s.clients.erase c = [] then some s.now else s.emptySince }
  | fireBegin (s : RoomLife) (e : Nat) : s.destroyed = false → s.timer = some e →
      e ≤ s.now → s.clients = [] →
      LifeStep s { s with destroying := true, timer := none }
  | fireSkip (s : RoomLife) (e : Nat) : s.destroyed = false → s.timer = some e →
      e ≤ s.now → s.clients ≠ [] →
      LifeStep s { s with timer := none }
  | destroyFinish (s : RoomLife) : s.destroying = true →
      LifeStep s { s with destroyed := true, destroying := false }

/-- A fresh `RoomState`: no clients yet, no timers. -/
def lifeInit : RoomLife :=
  { now := 0, clients := [], timer := none, emptySince := none,
    destroying := false, destroyed := false }

inductive LifeReach : RoomLife → Prop
  | init : LifeReach lifeInit
  | step {s s' : RoomLife} : LifeReach s → LifeStep s s' → LifeReach s'

/-! ## Connection gateway (index.ts)

URL paths are embedded as `List Char`; `^/ws/(.+)$` matches exactly the
paths of the form `"/ws/" ++ rest` with `rest` nonempty. -/

/-- Registry entry as the gateway sees it (`getRoom` result). -/
structure GatewayRoom where
  token : String
deriving DecidableEq, Repr

/-- `safeTokenCompare`: length check then `timingSafeEqual`, which on
equal-length buffers is byte equality. -/
def safeTokenCompare (a b : String) : Bool :=
  a.length == b.length && a == b

/-- `url.pathname.match(/^\/ws\/(.+)$/)`: the captured group. -/
def wsPathMatch (path : List Char) : Option (List Char) :=
  if path.take 4 = "/ws/".toList ∧ 4 < path.length then some (path.drop 4) else none

/-- `url.pathname.match(/^\/control\/(.+)$/)`: the captured group. -/
def controlPathMatch (path : List Char) : Option (List Char) :=
  if path.take 9 = "/control/".toList ∧ 9 < path.length then some (path.drop 9) else none

/-- JS `full.split(":")[0]`: the substring before the first `':'`. -/
def baseRoomOf (s : List Char) : List Char := s.takeWhile (fun c => c ≠ ':')

/-- The token / identity checks shared verbatim by both upgrade routes:
`token` must be present, non-empty (JS truthiness) and compare equal to
the room token; with `REQUIRE_GITHUB_AUTH`, `jwt` must be present,
non-empty and accepted by `verifyJWT`. -/
def gateAuth (room : GatewayRoom) (requireAuth : Bool) (verify : String → Bool)
    (token jwt : Option String) : Bool :=
  match token with
  | none => false
  | some t =>
    if t == "" then false
    else if ¬ safeTokenCompare t room.token then false
    else if requireAuth then
      match jwt with
      | none => false
      | some j => if j == "" then false else verify j
    else true

inductive UpgradeResult
  | destroyed
  | yjs (docName : List Char)
  | control (roomId : List Char)
deriving DecidableEq, Repr

/-- The `server.on("upgrade")` handler: route on the path, look up the
room, authenticate, and only then hand the socket to the matching
engine; every other outcome destroys the raw socket. -/
def handleUpgrade (registry : List Char → Option GatewayRoom) (requireAuth : Bool)
    (verify : String → Bool) (path : List Char) (token jwt : Option String) :
    UpgradeResult :=
  match wsPathMatch path with
  | some fullRoomName =>
    match registry (baseRoomOf fullRoomName) with
    | none => .destroyed
    | some room =>
      if gateAuth room requireAuth verify token jwt then .yjs fullRoomName
      else .destroyed
  | none =>
    match controlPathMatch path with
    | some roomId =>
      match registry roomId with
      | none => .destroyed
      | some room =>
        if gateAuth room requireAuth verify token jwt then .control roomId
        else .destroyed
    | none => .destroyed

/-! ## Persistence (persistence.ts, claim C10)

The external Yjs replica is modelled as an op-set CRDT per the library
contract: a `Y.Doc` is the finite set of ops it has integrated,
`Y.encodeStateAsUpdate` serializes that set canonically, and
`Y.applyUpdate` merges the ops of an update into the replica
(commutative and idempotent). The Level store is an association list;
`storeGet` returning `none` is `LEVEL_NOT_FOUND`. -/

abbrev YDoc := Finset ℕ

/-- `new Y.Doc()`. -/
def freshDoc : YDoc := ∅

/-- `Y.applyUpdate(doc, update)`. -/
def applyUpdate (d : YDoc) (u : List ℕ) : YDoc := d ∪ u.toFinset

/-- `Y.encodeStateAsUpdate(doc)`: canonical serialization of the op set. -/
def encodeStateAsUpdate (d : YDoc) : List ℕ := d.sort (· ≤ ·)

abbrev Store := List (String × List ℕ)

/-- `db.get(key)`, with `none` for `LEVEL_NOT_FOUND`. -/
def storeGet (st : Store) (k : String) : Option (List ℕ) :=
  (st.find? (fun p => p.1 == k)).map (·.2)

/-- `db.put(key, value)`: overwrite semantics. -/
def storePut (st : Store) (k : String) (v : List ℕ) : Store :=
  (k, v) :: st.filter (fun p => p.1 != k)

/-- `persistDoc(docName, doc)`: store the replica encoded as a full
state update under `doc:<name>`. -/
def persistDoc (st : Store) (name : String) (d : YDoc) : Store :=
  storePut st ("doc:" ++ name) (encodeStateAsUpdate d)

/-- `loadDoc(docName, doc)`: apply the stored update to the given
replica; a missing key returns normally with the replica unchanged. -/
def loadDoc (st : Store) (name : String) (d : YDoc) : Except String YDoc :=
  match storeGet st ("doc:" ++ name) with
  | some u => .ok (applyUpdate d u)
  | none => .ok d

/-! ## Helper lemmas -/

theorem comp_set_pred (sid tid : Nat) (c : ControlClient) :
    ((fun p : Nat × ControlClient => p.1 == tid) ∘
      (fun p => if p.1 == sid then (sid, c) else p))
      = fun p : Nat × ControlClient => p.1 == tid := by
  funext q
  by_cases hq : (q.1 == sid) = true
  · have h1 : q.1 = sid := by simpa using hq
    simp [Function.comp, hq, h1]
  · simp [Function.comp, hq]

theorem getClient_setClient_self (room : ControlRoom) (sid : Nat) (c c0 : ControlClient)
    (h : getClient room sid = some c0) :
    getClient (setClient room sid c) sid = some c := by
  unfold getClient setClient at *
  simp only [List.find?_map, comp_set_pred]
  cases hf : room.clients.find? (fun p => p.1 == sid) with
  | none => rw [hf] at h; simp at h
  | some q =>
    have hq0 := List.find?_some hf
    simp [show q.1 = sid by simpa using hq0]

theorem getClient_setClient_ne (room : ControlRoom) (sid tid : Nat) (c : ControlClient)
    (h : tid ≠ sid) :
    getClient (setClient room sid c) tid = getClient room tid := by
  unfold getClient setClient
  simp only [List.find?_map, comp_set_pred]
  cases hf : room.clients.find? (fun p => p.1 == tid) with
  | none => simp
  | some q =>
    have hq0 := List.find?_some hf
    have hq : q.1 = tid := by simpa using hq0
    simp [hq, h]

/-! ## C1: kick / join-response from a non-host -/

/-- C1 counterexample: a `kick` from a non-host but approved socket does
NOT drop silently — it falls through to the generic broadcast and is
forwarded verbatim to the other approved open socket, so "no message is
sent to any socket" is false. -/
theorem c1_counterexample :
    (handleCtrlMessage none (fun _ => true)
      ⟨[(0, { userId := "a", displayName := "", isHost := false,
              approved := true, permission := .readWrite }),
        (1, { userId := "b", displayName := "", isHost := false,
              approved := true, permission := .readWrite })], []⟩
      0 { type := "kick", userId := some "b" }).sends ≠ [] := by
  decide

/-- C1 amended: a `kick` or `join-response` from a non-host socket
leaves the control room state unchanged and closes no socket; no
targeted kick/approval action occurs, but the raw message is forwarded
by the fall-through broadcast to every other approved open socket when
the sender is approved (and nothing is sent when it is not). -/
theorem c1_nonhost_kick_joinresponse (serverRoom : Option ServerRoom) (isOpen : Nat → Bool)
    (room : ControlRoom) (sid : Nat) (msg : CtrlMsg) (client : ControlClient)
    (hget : getClient room sid = some client)
    (htype : msg.type = "kick" ∨ msg.type = "join-response")
    (hhost : client.isHost = false) :
    (handleCtrlMessage serverRoom isOpen room sid msg).room = room ∧
    (handleCtrlMessage serverRoom isOpen room sid msg).closes = [] ∧
    (handleCtrlMessage serverRoom isOpen room sid msg).sends =
      (if client.approved then broadcastSends room (OutMsg.relay msg) sid isOpen else []) := by
  rcases htype with h | h <;>
    simp [handleCtrlMessage, hget, h, hhost, ALLOWED_TYPES] <;>
    by_cases hap : client.approved <;>
    simp [hap, fallthroughResult, h]

/-- C1 witness: the amended statement evaluated at the concrete
counterexample room. -/
theorem c1_witness :
    (handleCtrlMessage none (fun _ => true)
      ⟨[(0, { userId := "a", displayName := "", isHost := false,
              approved := true, permission := .readWrite }),
        (1, { userId := "b", displayName := "", isHost := false,
              approved := true, permission := .readWrite })], []⟩
      0 { type := "kick", userId := some "b" }).room =
      ⟨[(0, { userId := "a", displayName := "", isHost := false,
              approved := true, permission := .readWrite }),
        (1, { userId := "b", displayName := "", isHost := false,
              approved := true, permission := .readWrite })], []⟩ := by
  exact (c1_nonhost_kick_joinresponse none (fun _ => true)
    ⟨[(0, { userId := "a", displayName := "", isHost := false,
            approved := true, permission := .readWrite }),
      (1, { userId := "b", displayName := "", isHost := false,
            approved := true, permission := .readWrite })], []⟩ 0
    { type := "kick", userId := some "b" }
    { userId := "a", displayName := "", isHost := false,
      approved := true, permission := .readWrite }
    (by decide) (Or.inl rfl) (by decide)).1

/-! ## C2: approval gating -/

theorem mem_sendToSends {s : Nat} {isOpen : Nat → Bool} {m : OutMsg} {p : Nat × OutMsg}
    (hp : p ∈ sendToSends s isOpen m) : p = (s, m) := by
  unfold sendToSends at hp
  split at hp
  · simpa using hp
  · simp at hp

theorem joinRequest_sends_not_relay {serverRoom : Option ServerRoom} {isOpen : Nat → Bool}
    {room : ControlRoom} {sid : Nat} {msg : CtrlMsg} {client : ControlClient}
    {p : Nat × OutMsg}
    (hp : p ∈ (joinRequestResult serverRoom isOpen room sid msg client).sends) :
    p.2.isRelay = false := by
  unfold joinRequestResult at hp
  split at hp
  · split at hp
    · rw [mem_sendToSends hp]; rfl
    · simp at hp
  · rw [mem_sendToSends hp]; rfl

theorem joinResponse_sends_not_relay {isOpen : Nat → Bool} {room : ControlRoom}
    {msg : CtrlMsg} {p : Nat × OutMsg}
    (hp : p ∈ (joinResponseResult isOpen room msg).sends) :
    p.2.isRelay = false := by
  unfold joinResponseResult at hp
  split at hp
  · simp at hp
  · split at hp
    · simp at hp
    · split at hp
      · simp at hp
      · rw [mem_sendToSends hp]
        rfl

theorem kick_sends_not_relay {isOpen : Nat → Bool} {room : ControlRoom}
    {msg : CtrlMsg} {p : Nat × OutMsg}
    (hp : p ∈ (kickResult isOpen room msg).sends) : p.2.isRelay = false := by
  unfold kickResult at hp
  simp only [List.mem_map] at hp
  rcases hp with ⟨q, _, rfl⟩
  rfl

/-- C2 counterexample: in a room with `requireApproval` set, the client
record created at connection time has `approved = true`, not `false` —
the source initializes `approved: true` unconditionally and only marks
a guest unapproved when its `join-request` arrives. -/
theorem c2_counterexample :
    (initClient
      (some { hostUserId := none, requireApproval := true, defaultPermission := none })
      ).approved = true := rfl

/-- C2 amended: every control connection starts with an empty user-id,
permission defaulted from the room's `defaultPermission` (else
read-write), and `approved = true` regardless of `requireApproval`
(approval is only revoked when the guest's `join-request` arrives);
and while a socket's `approved` flag is false, no inbound message from
it — `join-request` included — is relayed to any socket (the only sends
are server-constructed replies). -/
theorem c2_init_and_gating :
    (∀ sr : Option ServerRoom,
      (initClient sr).userId = "" ∧ (initClient sr).approved = true ∧
      (initClient sr).permission = (sr.bind (·.defaultPermission)).getD Perm.readWrite) ∧
    (∀ (serverRoom : Option ServerRoom) (isOpen : Nat → Bool) (room : ControlRoom)
       (sid : Nat) (msg : CtrlMsg) (client : ControlClient),
       getClient room sid = some client → client.approved = false →
       ∀ p ∈ (handleCtrlMessage serverRoom isOpen room sid msg).sends,
         p.2.isRelay = false) := by
  refine ⟨fun sr => ⟨rfl, rfl, rfl⟩, ?_⟩
  intro serverRoom isOpen room sid msg client hget hnap p hp
  simp only [handleCtrlMessage, hget] at hp
  split at hp
  · simp at hp
  split at hp
  · exact joinRequest_sends_not_relay hp
  split at hp
  · exact joinResponse_sends_not_relay hp
  split at hp
  · exact kick_sends_not_relay hp
  split at hp
  · simp at hp
  split at hp
  · simp at hp
  all_goals
    rename_i hcond
    exact absurd (not_not.mp hcond) (by simp [hnap])

/-- C2 witness: the gating part evaluated on a concrete unapproved
guest whose `presence-update` produces no relayed send. -/
theorem c2_witness :
    ∀ p ∈ (handleCtrlMessage
      (some { hostUserId := none, requireApproval := true, defaultPermission := none })
      (fun _ => true)
      ⟨[(0, { userId := "g", displayName := "", isHost := false,
              approved := false, permission := .readWrite }),
        (1, { userId := "b", displayName := "", isHost := false,
              approved := true, permission := .readWrite })], [("g", 0)]⟩
      0 { type := "presence-update", userId := some "g" }).sends,
      p.2.isRelay = false := by
  exact c2_init_and_gating.2
    (some { hostUserId := none, requireApproval := true, defaultPermission := none })
    (fun _ => true)
    ⟨[(0, { userId := "g", displayName := "", isHost := false,
            approved := false, permission := .readWrite }),
      (1, { userId := "b", displayName := "", isHost := false,
            approved := true, permission := .readWrite })], [("g", 0)]⟩
    0 { type := "presence-update", userId := some "g" }
    { userId := "g", displayName := "", isHost := false,
      approved := false, permission := .readWrite }
    (by decide) rfl

/-! ## C3: read-only permission and file-op frames -/

/-- C3 counterexample: a participant whose effective permission is
read-only (here from the room's `defaultPermission`) still causes a
type-2 file-op frame on the CRDT WebSocket to reach the other connected
socket — `handleMessage`'s `messageFileOp` relay has no permission
check, so "in no execution does a read-only participant cause a file-op
frame to reach another connected socket" is false. -/
theorem c3_counterexample :
    (initClient
      (some { hostUserId := none, requireApproval := false,
              defaultPermission := some Perm.readOnly })).permission = Perm.readOnly ∧
    yjsFileOpSends [0, 1] (fun _ => true) 0 = [1] := by
  exact ⟨rfl, rfl⟩

/-- C3 amended: on the control channel a `file-op` from a read-only
sender is dropped with no state change, no sends and no closes; on the
CRDT WebSocket, however, a type-2 file-op frame from any socket —
permission is not consulted on that channel — is relayed to exactly the
other connected open sockets. -/
theorem c3_readonly_fileop (serverRoom : Option ServerRoom) (isOpen : Nat → Bool)
    (room : ControlRoom) (sid : Nat) (msg : CtrlMsg) (client : ControlClient)
    (hget : getClient room sid = some client)
    (hperm : client.permission = Perm.readOnly)
    (htype : msg.type = "file-op") :
    handleCtrlMessage serverRoom isOpen room sid msg = ⟨room, [], []⟩ ∧
    ∀ (clients : List Nat) (crdtOpen : Nat → Bool) (sender c : Nat),
      c ∈ yjsFileOpSends clients crdtOpen sender ↔
        c ∈ clients ∧ c ≠ sender ∧ crdtOpen c = true := by
  constructor
  · simp [handleCtrlMessage, hget, htype, hperm, ALLOWED_TYPES]
  · intro clients crdtOpen sender c
    simp [yjsFileOpSends, List.mem_filter, and_assoc]

/-- C3 witness: the control-channel drop evaluated on a concrete
read-only sender. -/
theorem c3_witness :
    handleCtrlMessage none (fun _ => true)
      ⟨[(0, { userId := "a", displayName := "", isHost := false,
              approved := true, permission := .readOnly }),
        (1, { userId := "b", displayName := "", isHost := false,
              approved := true, permission := .readWrite })], []⟩
      0 { type := "file-op" } =
    ⟨⟨[(0, { userId := "a", displayName := "", isHost := false,
             approved := true, permission := .readOnly }),
       (1, { userId := "b", displayName := "", isHost := false,
             approved := true, permission := .readWrite })], []⟩, [], []⟩ := by
  exact (c3_readonly_fileop none (fun _ => true)
    ⟨[(0, { userId := "a", displayName := "", isHost := false,
            approved := true, permission := .readOnly }),
      (1, { userId := "b", displayName := "", isHost := false,
            approved := true, permission := .readWrite })], []⟩
    0 { type := "file-op" }
    { userId := "a", displayName := "", isHost := false,
      approved := true, permission := .readOnly }
    (by decide) rfl rfl).1

/-! ## C4: host determination -/

theorem getClient_pendingSet (R : ControlRoom) (u : String) (s tid : Nat) :
    getClient (pendingSet R u s) tid = getClient R tid := by
  unfold pendingSet getClient
  split <;> rfl

theorem getClient_pendingErase (R : ControlRoom) (u : String) (tid : Nat) :
    getClient (pendingErase R u) tid = getClient R tid := rfl

theorem presenceClient_isHost_of_ne {serverRoom : Option ServerRoom} {room : ControlRoom}
    {msg : CtrlMsg} {client : ControlClient} (h : client.userId ≠ "") :
    (presenceClient serverRoom room msg client).isHost = client.isHost := by
  have hb : (client.userId == "") = false := by simp [h]
  unfold presenceClient hostDetermined
  by_cases hu : strTruthy msg.userId = true <;>
    by_cases hd : strTruthy msg.displayName = true <;>
      simp [hu, hd, hb]

theorem applyDecision_isHost (msg : CtrlMsg) (tc : ControlClient) :
    (applyDecision msg tc).isHost = tc.isHost := rfl

theorem identifiedClient_isHost (msg : CtrlMsg) (client : ControlClient) (ap : Bool) :
    (identifiedClient msg client ap).isHost = client.isHost := rfl

/-- `isHost` is unchanged for every record across a `join-request`. -/
theorem joinRequest_isHost_preserved {serverRoom : Option ServerRoom} {isOpen : Nat → Bool}
    {room : ControlRoom} {sid tid : Nat} {msg : CtrlMsg} {client c c' : ControlClient}
    (hget : getClient room sid = some client)
    (hc : getClient room tid = some c)
    (hc' : getClient (joinRequestResult serverRoom isOpen room sid msg client).room tid = some c') :
    c'.isHost = c.isHost := by
  have key : ∀ ap : Bool,
      getClient (setClient room sid (identifiedClient msg client ap)) tid = some c' →
      c'.isHost = c.isHost := by
    intro ap hcc
    by_cases he : tid = sid
    · subst he
      rw [getClient_setClient_self room tid _ client hget] at hcc
      have hcl : c = client := Option.some_inj.mp (hc.symm.trans hget)
      rw [Option.some_inj.mp hcc.symm, identifiedClient_isHost, hcl]
    · rw [getClient_setClient_ne room sid tid _ he, hc] at hcc
      rw [Option.some_inj.mp hcc.symm]
  unfold joinRequestResult at hc'
  split at hc'
  · split at hc' <;>
      (rename_i hmatch
       simp only [joinRequestRoom, getClient_pendingSet] at hc' ⊢
       exact key false hc')
  · exact key true hc'

/-- `isHost` is unchanged for every record across a `join-response`. -/
theorem joinResponse_isHost_preserved {isOpen : Nat → Bool} {room : ControlRoom}
    {tid : Nat} {msg : CtrlMsg} {c c' : ControlClient}
    (hc : getClient room tid = some c)
    (hc' : getClient (joinResponseResult isOpen room msg).room tid = some c') :
    c'.isHost = c.isHost := by
  unfold joinResponseResult at hc'
  split at hc'
  · rw [hc] at hc'
    rw [Option.some_inj.mp hc'.symm]
  · split at hc'
    · rw [hc] at hc'
      rw [Option.some_inj.mp hc'.symm]
    · split at hc'
      · simp only [getClient_pendingErase] at hc'
        rw [hc] at hc'
        rw [Option.some_inj.mp hc'.symm]
      · rename_i targetSid hpend xopt tc htc
        by_cases he : tid = targetSid
        · subst he
          rw [getClient_setClient_self _ tid _ tc htc] at hc'
          have hcl : c = tc := by
            rw [getClient_pendingErase] at htc
            exact Option.some_inj.mp (hc.symm.trans htc)
          rw [Option.some_inj.mp hc'.symm, applyDecision_isHost, hcl]
        · rw [getClient_setClient_ne _ targetSid tid _ he, getClient_pendingErase, hc] at hc'
          rw [Option.some_inj.mp hc'.symm]

/-- C4 counterexample: both parts of the claim fail on the code.
Demotion: a host (pinned `hostUserId = "h"`, record `isHost = true`)
that sends a user-id-less `join-request` gets its recorded user-id
overwritten with `(msg.userId as string) || ""` = `""`; its next
`presence-update` (announcing "x") re-enters the determination block
(`!client.userId`) and assigns `isHost = false` — the flag transitions
from true to false and is set more than once. Foreclosure: a socket
that first sends `join-request` with user-id "alice" and then
`presence-update` with the matching pinned user-id "alice" does NOT
become host, because the `presence-update` no longer finds an empty
recorded user-id. -/
theorem c4_counterexample :
    ((getClient (handleCtrlMessage
        (some { hostUserId := some "h", requireApproval := false, defaultPermission := none })
        (fun _ => true)
        ⟨[(0, { userId := "h", displayName := "", isHost := true,
                approved := true, permission := .readWrite })], []⟩
        0 { type := "join-request" }).room 0).map
          (fun c => (c.userId, c.isHost)) = some ("", true) ∧
     (getClient (handleCtrlMessage
        (some { hostUserId := some "h", requireApproval := false, defaultPermission := none })
        (fun _ => true)
        (handleCtrlMessage
          (some { hostUserId := some "h", requireApproval := false, defaultPermission := none })
          (fun _ => true)
          ⟨[(0, { userId := "h", displayName := "", isHost := true,
                  approved := true, permission := .readWrite })], []⟩
          0 { type := "join-request" }).room
        0 { type := "presence-update", userId := some "x" }).room 0).map (·.isHost)
        = some false) ∧
    (getClient (handleCtrlMessage
      (some { hostUserId := some "alice", requireApproval := false, defaultPermission := none })
      (fun _ => true)
      (handleCtrlMessage
        (some { hostUserId := some "alice", requireApproval := false, defaultPermission := none })
        (fun _ => true)
        ⟨[(0, { userId := "", displayName := "", isHost := false,
                approved := true, permission := .readWrite })], []⟩
        0 { type := "join-request", userId := some "alice", displayName := some "A" }).room
      0 { type := "presence-update", userId := some "alice" }).room 0).map (·.isHost)
      = some false := by
  exact ⟨⟨by decide, by decide⟩, by decide⟩

/-- C4 amended: the `isHost` flag of a record is preserved by the
handling of any message, provided the sender's recorded user-id is
nonempty when it is that record — the flag is NOT monotone in general,
because `join-request` always overwrites the sender's recorded user-id
with `(msg.userId as string) || ""`, so a user-id-less `join-request`
resets it to empty and a later `presence-update` re-runs determination
and can demote an existing host (see the counterexample). Host-ness is
(re)determined on a `presence-update` carrying a truthy user-id from an
approved socket whose recorded user-id is empty (a prior `join-request`
carrying a user-id thereby forecloses determination): with a truthy
pinned `hostUserId` the socket is host iff the announced id matches it,
otherwise iff the room currently has no host — the second conjunct
below covers re-determination of a current host as well, since it does
not constrain the prior `isHost` value. -/
theorem c4_host_rules :
    (∀ (serverRoom : Option ServerRoom) (isOpen : Nat → Bool) (room : ControlRoom)
       (sid tid : Nat) (msg : CtrlMsg) (client c : ControlClient),
       getClient room sid = some client →
       getClient room tid = some c → c.isHost = true →
       (tid = sid → c.userId ≠ "") →
       ∀ c', getClient (handleCtrlMessage serverRoom isOpen room sid msg).room tid = some c' →
         c'.isHost = true) ∧
    (∀ (serverRoom : Option ServerRoom) (isOpen : Nat → Bool) (room : ControlRoom)
       (sid : Nat) (msg : CtrlMsg) (client : ControlClient),
       getClient room sid = some client → client.approved = true →
       client.userId = "" → msg.type = "presence-update" → strTruthy msg.userId = true →
       getClient (handleCtrlMessage serverRoom isOpen room sid msg).room sid =
         some (presenceClient serverRoom room msg client) ∧
       (presenceClient serverRoom room msg client).isHost =
         (if strTruthy (roomHostUserId serverRoom) = true then
            some (strOrEmpty msg.userId) == roomHostUserId serverRoom
          else (findHost room).isNone)) := by
  constructor
  · intro serverRoom isOpen room sid tid msg client c hget hc hhost hne c' hc'
    have unchanged : getClient room tid = some c' → c'.isHost = true := by
      intro hcc
      rw [← Option.some_inj.mp (hc.symm.trans hcc)]
      exact hhost
    simp only [handleCtrlMessage, hget] at hc'
    split at hc'
    · exact unchanged hc'
    split at hc'
    · rw [joinRequest_isHost_preserved hget hc hc']
      exact hhost
    split at hc'
    · rw [joinResponse_isHost_preserved hc hc']
      exact hhost
    split at hc'
    · exact unchanged hc'
    split at hc'
    · exact unchanged hc'
    split at hc'
    · exact unchanged hc'
    split at hc'
    · exact unchanged hc'
    · unfold fallthroughResult at hc'
      split at hc'
      · by_cases he : tid = sid
        · subst he
          rw [getClient_setClient_self room tid _ client hget] at hc'
          have hcl : c = client := Option.some_inj.mp (hc.symm.trans hget)
          rw [Option.some_inj.mp hc'.symm,
            presenceClient_isHost_of_ne (by rw [← hcl]; exact hne rfl), ← hcl]
          exact hhost
        · rw [getClient_setClient_ne room sid tid _ he] at hc'
          exact unchanged hc'
      · exact unchanged hc'
  · intro serverRoom isOpen room sid msg client hget hap hempty htype huid
    constructor
    · simp only [handleCtrlMessage, hget, htype]
      simp [ALLOWED_TYPES, fallthroughResult, hap, htype]
      exact getClient_setClient_self room sid _ client hget
    · have hb : (client.userId == "") = true := by simp [hempty]
      unfold presenceClient hostDetermined
      by_cases hd : strTruthy msg.displayName = true <;>
        by_cases hh : strTruthy (roomHostUserId serverRoom) = true <;>
          simp [hd, hh, huid, hb]

/-- C4 witness: a socket identifying via `presence-update` with the
pinned host user-id (no prior `join-request`) becomes host. -/
theorem c4_witness :
    getClient (handleCtrlMessage
      (some { hostUserId := some "alice", requireApproval := false, defaultPermission := none })
      (fun _ => true)
      ⟨[(0, { userId := "", displayName := "", isHost := false,
              approved := true, permission := .readWrite })], []⟩
      0 { type := "presence-update", userId := some "alice" }).room 0 =
      some (presenceClient
        (some { hostUserId := some "alice", requireApproval := false, defaultPermission := none })
        ⟨[(0, { userId := "", displayName := "", isHost := false,
                approved := true, permission := .readWrite })], []⟩
        { type := "presence-update", userId := some "alice" }
        { userId := "", displayName := "", isHost := false,
          approved := true, permission := .readWrite }) := by
  exact (c4_host_rules.2
    (some { hostUserId := some "alice", requireApproval := false, defaultPermission := none })
    (fun _ => true)
    ⟨[(0, { userId := "", displayName := "", isHost := false,
            approved := true, permission := .readWrite })], []⟩
    0 { type := "presence-update", userId := some "alice" }
    { userId := "", displayName := "", isHost := false,
      approved := true, permission := .readWrite }
    (by decide) rfl rfl rfl (by decide)).1

/-! ## C5: upgrade gating -/

theorem wsPathMatch_spec {path d : List Char} (h : wsPathMatch path = some d) :
    path = "/ws/".toList ++ d ∧ d ≠ [] := by
  unfold wsPathMatch at h
  split at h
  · rename_i hcond
    obtain ⟨htake, hlen⟩ := hcond
    injection h with h
    subst h
    refine ⟨?_, ?_⟩
    · conv_lhs => rw [← List.take_append_drop 4 path]
      rw [htake]
    · intro hd
      have := List.drop_eq_nil_iff.mp hd
      omega
  · simp at h

theorem controlPathMatch_spec {path d : List Char} (h : controlPathMatch path = some d) :
    path = "/control/".toList ++ d ∧ d ≠ [] := by
  unfold controlPathMatch at h
  split at h
  · rename_i hcond
    obtain ⟨htake, hlen⟩ := hcond
    injection h with h
    subst h
    refine ⟨?_, ?_⟩
    · conv_lhs => rw [← List.take_append_drop 9 path]
      rw [htake]
    · intro hd
      have := List.drop_eq_nil_iff.mp hd
      omega
  · simp at h

theorem gateAuth_spec {room : GatewayRoom} {requireAuth : Bool} {verify : String → Bool}
    {token jwt : Option String} (h : gateAuth room requireAuth verify token jwt = true) :
    token = some room.token ∧
    (requireAuth = true → ∃ j, jwt = some j ∧ verify j = true) := by
  unfold gateAuth at h
  split at h
  · simp at h
  · rename_i t
    split at h
    · simp at h
    split at h
    · simp at h
    rename_i hne hcmp
    have heq : t = room.token := by
      have hst := not_not.mp hcmp
      unfold safeTokenCompare at hst
      simp only [Bool.and_eq_true, beq_iff_eq] at hst
      exact hst.2
    subst heq
    refine ⟨rfl, ?_⟩
    split at h
    · rename_i hra
      split at h
      · simp at h
      · rename_i j
        split at h
        · simp at h
        · exact fun _ => ⟨j, rfl, h⟩
    · rename_i hra
      exact fun hcontra => absurd hcontra hra

/-- C5: an upgrade is handed to the CRDT or control engine only when
the path matches `^/ws/(.+)$` resp. `^/control/(.+)$`, the referenced
room id (for `/ws/`, the part of the capture before the first `:`)
exists in the registry, the `?token` parameter equals the room token,
and — when identity auth is enabled — the `?jwt` parameter is present
and accepted; in every other case the socket is destroyed. -/
theorem c5_upgrade_gate (registry : List Char → Option GatewayRoom) (requireAuth : Bool)
    (verify : String → Bool) (path : List Char) (token jwt : Option String) :
    (∀ d, handleUpgrade registry requireAuth verify path token jwt = .yjs d →
       path = "/ws/".toList ++ d ∧ d ≠ [] ∧
       ∃ room, registry (baseRoomOf d) = some room ∧ token = some room.token ∧
         (requireAuth = true → ∃ j, jwt = some j ∧ verify j = true)) ∧
    (∀ r, handleUpgrade registry requireAuth verify path token jwt = .control r →
       path = "/control/".toList ++ r ∧ r ≠ [] ∧
       ∃ room, registry r = some room ∧ token = some room.token ∧
         (requireAuth = true → ∃ j, jwt = some j ∧ verify j = true)) := by
  constructor
  · intro d hres
    unfold handleUpgrade at hres
    cases hws : wsPathMatch path with
    | none =>
      simp only [hws] at hres
      cases hctl : controlPathMatch path with
      | none => simp only [hctl] at hres; simp at hres
      | some r =>
        simp only [hctl] at hres
        cases hreg : registry r with
        | none => simp only [hreg] at hres; simp at hres
        | some room => simp only [hreg] at hres; split at hres <;> simp at hres
    | some full =>
      simp only [hws] at hres
      cases hreg : registry (baseRoomOf full) with
      | none => simp only [hreg] at hres; simp at hres
      | some room =>
        simp only [hreg] at hres
        split at hres
        · rename_i hga
          injection hres with hres
          subst hres
          obtain ⟨hpath, hne⟩ := wsPathMatch_spec hws
          obtain ⟨htok, hjwt⟩ := gateAuth_spec hga
          exact ⟨hpath, hne, room, hreg, htok, hjwt⟩
        · simp at hres
  · intro r hres
    unfold handleUpgrade at hres
    cases hws : wsPathMatch path with
    | none =>
      simp only [hws] at hres
      cases hctl : controlPathMatch path with
      | none => simp only [hctl] at hres; simp at hres
      | some r0 =>
        simp only [hctl] at hres
        cases hreg : registry r0 with
        | none => simp only [hreg] at hres; simp at hres
        | some room =>
          simp only [hreg] at hres
          split at hres
          · rename_i hga
            injection hres with hres
            subst hres
            obtain ⟨hpath, hne⟩ := controlPathMatch_spec hctl
            obtain ⟨htok, hjwt⟩ := gateAuth_spec hga
            exact ⟨hpath, hne, room, hreg, htok, hjwt⟩
          · simp at hres
    | some full =>
      simp only [hws] at hres
      cases hreg : registry (baseRoomOf full) with
      | none => simp only [hreg] at hres; simp at hres
      | some room => simp only [hreg] at hres; split at hres <;> simp at hres

/-- C5 witness: a concrete authorized `/ws/` upgrade satisfies all the
gate conditions. -/
theorem c5_witness :
    "/ws/room1:notes".toList = "/ws/".toList ++ "room1:notes".toList ∧
    "room1:notes".toList ≠ [] ∧
    ∃ room, (fun r => if r = "room1".toList then some (⟨"tok"⟩ : GatewayRoom) else none)
        (baseRoomOf "room1:notes".toList) = some room ∧
      (some "tok" : Option String) = some room.token ∧
      (false = true → ∃ j, (none : Option String) = some j ∧ (fun _ => false) j = true) := by
  exact (c5_upgrade_gate
    (fun r => if r = "room1".toList then some (⟨"tok"⟩ : GatewayRoom) else none)
    false (fun _ => false) "/ws/room1:notes".toList (some "tok") none).1
    "room1:notes".toList (by decide)

/-! ## C6: fanout discipline -/

/-- C6: a doc-update from origin socket S is sent to exactly the other
connected open sockets (never back to S); a control broadcast from S
reaches every other approved open socket and never S; an awareness
update is sent to all connected open sockets, origin included. -/
theorem c6_fanout_discipline :
    (∀ (clients : List Nat) (isOpen : Nat → Bool) (origin c : Nat),
       origin ∉ docUpdateSends clients isOpen origin ∧
       (c ∈ docUpdateSends clients isOpen origin ↔
         c ∈ clients ∧ c ≠ origin ∧ isOpen c = true)) ∧
    (∀ (room : ControlRoom) (m : OutMsg) (sid : Nat) (isOpen : Nat → Bool),
       (∀ o, (sid, o) ∉ broadcastSends room m sid isOpen) ∧
       (∀ q ∈ room.clients, q.1 ≠ sid → q.2.approved = true → isOpen q.1 = true →
          (q.1, m) ∈ broadcastSends room m sid isOpen)) ∧
    (∀ (clients : List Nat) (isOpen : Nat → Bool) (c : Nat),
       c ∈ awarenessSends clients isOpen ↔ c ∈ clients ∧ isOpen c = true) := by
  refine ⟨?_, ?_, ?_⟩
  · intro clients isOpen origin c
    constructor
    · simp [docUpdateSends, List.mem_filter]
    · simp [docUpdateSends, List.mem_filter, and_assoc]
  · intro room m sid isOpen
    constructor
    · intro o hmem
      simp only [broadcastSends, List.mem_map, List.mem_filter] at hmem
      rcases hmem with ⟨q, ⟨_, hpred⟩, heq⟩
      have h1 : q.1 = sid := congrArg Prod.fst heq
      simp [h1] at hpred
    · intro q hq hne hap hop
      simp only [broadcastSends, List.mem_map]
      exact ⟨q, List.mem_filter.mpr ⟨hq, by simp [hne, hap, hop]⟩, rfl⟩
  · intro clients isOpen c
    simp [awarenessSends, List.mem_filter]

/-- C6 witness: the control-broadcast clause evaluated in a concrete
two-client room. -/
theorem c6_witness :
    (1, OutMsg.kicked) ∈ broadcastSends
      ⟨[(0, { userId := "a", displayName := "", isHost := false,
              approved := true, permission := .readWrite }),
        (1, { userId := "b", displayName := "", isHost := false,
              approved := true, permission := .readWrite })], []⟩
      OutMsg.kicked 0 (fun _ => true) := by
  exact (c6_fanout_discipline.2.1
    ⟨[(0, { userId := "a", displayName := "", isHost := false,
            approved := true, permission := .readWrite }),
      (1, { userId := "b", displayName := "", isHost := false,
            approved := true, permission := .readWrite })], []⟩
    OutMsg.kicked 0 (fun _ => true)).2
    (1, { userId := "b", displayName := "", isHost := false,
          approved := true, permission := .readWrite })
    (by decide) (by decide) rfl rfl

/-! ## C7: at-most-one replica construction -/

/-- C7: interleaved concurrent first-connect attempts construct at most
one replica, and every caller that completes resolves to the same
`RoomState` (the first construction, id 0), with exactly one
construction having happened by then. -/
theorem c7_single_creation (s : CreateSt) (h : CreateReach s) :
    s.built ≤ 1 ∧ ∀ p ∈ s.callers, ∀ id, p = .done id → id = 0 ∧ s.built = 1 := by
  have inv : ∀ t, CreateReach t →
      t.built ≤ 1 ∧
      (∀ id, t.pending = some id → id = 0 ∧ t.built = 1) ∧
      (∀ id, t.roomState = some id → id = 0 ∧ t.built = 1) ∧
      (t.built = 0 → t.pending = none ∧ t.roomState = none ∧ ∀ p ∈ t.callers, p = .idle) ∧
      (t.built = 1 → t.pending.isSome ∨ t.roomState.isSome) ∧
      (∀ p ∈ t.callers, ∀ id,
        (p = .creating id ∨ p = .waiting id ∨ p = .done id) → id = 0) := by
    intro t ht
    induction ht with
    | init n =>
      refine ⟨by simp [createInit], by simp [createInit], by simp [createInit],
        fun _ => ⟨rfl, rfl, fun p hp => ?_⟩, by simp [createInit], fun p hp id hpid => ?_⟩
      · exact (List.mem_replicate.mp hp).2
      · have := (List.mem_replicate.mp hp).2
        subst this
        rcases hpid with h | h | h <;> exact absurd h (by simp)
    | @step s1 s2 hre hstep ih =>
      obtain ⟨ihle, ihpend, ihrs, ihz, ihone, ihph⟩ := ih
      cases hstep with
      | enterExisting i id hcall hrs =>
        refine ⟨ihle, ihpend, ihrs, ?_, ihone, ?_⟩
        · intro hb0
          exact absurd hrs (by simp [(ihz hb0).2.1])
        · intro p hp pid hpid
          rcases List.mem_or_eq_of_mem_set hp with hmem | heq
          · exact ihph p hmem pid hpid
          · subst heq
            rcases hpid with h | h | h <;> first
              | (injection h with h2; rw [← h2]; exact (ihrs id hrs).1)
              | exact absurd h (by simp)
      | enterPending i id hcall hrs hpend =>
        refine ⟨ihle, ihpend, ihrs, ?_, ihone, ?_⟩
        · intro hb0
          exact absurd hpend (by simp [(ihz hb0).1])
        · intro p hp pid hpid
          rcases List.mem_or_eq_of_mem_set hp with hmem | heq
          · exact ihph p hmem pid hpid
          · subst heq
            rcases hpid with h | h | h <;> first
              | (injection h with h2; rw [← h2]; exact (ihpend id hpend).1)
              | exact absurd h (by simp)
      | enterCreate i hcall hrs hpend =>
        have hb0 : s1.built = 0 := by
          rcases Nat.lt_or_ge s1.built 1 with hlt | hge
          · omega
          · have h1 : s1.built = 1 := by omega
            rcases ihone h1 with hs | hs
            · rw [hpend] at hs; simp at hs
            · rw [hrs] at hs; simp at hs
        refine ⟨by show s1.built + 1 ≤ 1; omega, ?_, ?_,
          by intro h2; have h3 : s1.built + 1 = 0 := h2; omega, ?_, ?_⟩
        · intro id hid
          have h3 : s1.built = id := Option.some_inj.mp hid
          exact ⟨by omega, by show s1.built + 1 = 1; omega⟩
        · intro id hid
          have h3 : s1.roomState = some id := hid
          rw [hrs] at h3
          simp at h3
        · intro _
          exact Or.inl rfl
        · intro p hp pid hpid
          rcases List.mem_or_eq_of_mem_set hp with hmem | heq
          · have := (ihz hb0).2.2 p hmem
            subst this
            rcases hpid with h | h | h <;> exact absurd h (by simp)
          · subst heq
            rcases hpid with h | h | h <;> first
              | (injection h with h2; omega)
              | exact absurd h (by simp)
      | finishLoad i id hcall =>
        have hmem : CallerPhase.creating id ∈ s1.callers := List.get?_mem hcall
        have hid0 : id = 0 := ihph _ hmem id (Or.inl rfl)
        have hb1 : s1.built = 1 := by
          rcases Nat.lt_or_ge s1.built 1 with hlt | hge
          · have hb0 : s1.built = 0 := by omega
            have := (ihz hb0).2.2 _ hmem
            simp at this
          · omega
        refine ⟨ihle, by intro jd hjd; exact absurd hjd (by simp),
          ?_, by intro h2; have h3 : s1.built = 0 := h2; omega, ?_, ?_⟩
        · intro jd hjd
          have h3 : id = jd := Option.some_inj.mp hjd
          subst h3
          exact ⟨hid0, hb1⟩
        · intro _
          exact Or.inr rfl
        · intro p hp pid hpid
          rcases List.mem_or_eq_of_mem_set hp with hmem2 | heq
          · exact ihph p hmem2 pid hpid
          · subst heq
            rcases hpid with h | h | h <;> first
              | (injection h with h2; omega)
              | exact absurd h (by simp)
      | wake i id hcall hrs =>
        refine ⟨ihle, ihpend, ihrs, ?_, ihone, ?_⟩
        · intro hb0
          exact absurd hrs (by simp [(ihz hb0).2.1])
        · intro p hp pid hpid
          rcases List.mem_or_eq_of_mem_set hp with hmem | heq
          · exact ihph p hmem pid hpid
          · subst heq
            rcases hpid with h | h | h <;> first
              | (injection h with h2; rw [← h2]; exact (ihrs id hrs).1)
              | exact absurd h (by simp)
  obtain ⟨hle, _, _, hz, _, hph⟩ := inv s h
  refine ⟨hle, fun p hp id hpid => ⟨hph p hp id (Or.inr (Or.inr hpid)), ?_⟩⟩
  rcases Nat.lt_or_ge s.built 1 with hlt | hge
  · have hb0 : s.built = 0 := by omega
    have := (hz hb0).2.2 p hp
    rw [hpid] at this
    simp at this
  · omega

/-- C7 witness: a concrete interleaving of two callers — one creates,
the other joins the pending creation, the creation finishes — reaches a
state with exactly one construction and both callers resolved to
RoomState 0. -/
theorem c7_witness :
    (⟨some 0, none, 1, [.done 0, .done 0]⟩ : CreateSt).built ≤ 1 ∧
    ∀ p ∈ (⟨some 0, none, 1, [.done 0, .done 0]⟩ : CreateSt).callers,
      ∀ id, p = .done id → id = 0 ∧ (⟨some 0, none, 1, [.done 0, .done 0]⟩ : CreateSt).built = 1 := by
  refine c7_single_creation _ ?_
  have h0 : CreateReach (createInit 2) := CreateReach.init 2
  have h1 : CreateReach (⟨none, some 0, 1, [.creating 0, .idle]⟩ : CreateSt) := by
    have := CreateReach.step h0 (CreateStep.enterCreate (createInit 2) 0 (by decide) rfl rfl)
    simpa [createInit] using this
  have h2 : CreateReach (⟨none, some 0, 1, [.creating 0, .waiting 0]⟩ : CreateSt) := by
    have := CreateReach.step h1
      (CreateStep.enterPending (⟨none, some 0, 1, [.creating 0, .idle]⟩ : CreateSt) 1 0
        (by decide) rfl rfl)
    simpa using this
  have h3 : CreateReach (⟨some 0, none, 1, [.done 0, .waiting 0]⟩ : CreateSt) := by
    have := CreateReach.step h2
      (CreateStep.finishLoad (⟨none, some 0, 1, [.creating 0, .waiting 0]⟩ : CreateSt) 0 0
        (by decide))
    simpa using this
  have h4 := CreateReach.step h3
    (CreateStep.wake (⟨some 0, none, 1, [.done 0, .waiting 0]⟩ : CreateSt) 1 0 (by decide) rfl)
  simpa using h4

/-! ## C8: idle destruction -/

/-- C8: the code violates the claim. The timer callback's
`clients.size === 0` check happens before `cleanupRoom`, and
`cleanupRoom` awaits `p.persistDoc` before `doc.destroy()` /
`roomStates.delete`; a client that connects during that await joins the
still-registered room, yet `cleanupRoom` resumes and destroys it. The
state below — the document destroyed while client 5 is attached, at the
moment of destruction — is reachable: create, connect 9, close 9 (arms
the timer), wait out the 30 s grace, timer fires on the empty room and
the persist await begins, client 5 connects during the await, and the
destruction then completes. -/
theorem c8_destroy_race :
    LifeReach (⟨idleGrace, [5], none, none, false, true⟩ : RoomLife) ∧
    (⟨idleGrace, [5], none, none, false, true⟩ : RoomLife).destroyed = true ∧
    (⟨idleGrace, [5], none, none, false, true⟩ : RoomLife).clients ≠ [] := by
  refine ⟨?_, rfl, by decide⟩
  have h1 : LifeReach (⟨0, [9], none, none, false, false⟩ : RoomLife) := by
    have := LifeReach.step LifeReach.init (LifeStep.connect lifeInit 9 rfl)
    simpa [lifeInit] using this
  have h2 : LifeReach (⟨0, [], some idleGrace, some 0, false, false⟩ : RoomLife) := by
    have := LifeReach.step h1
      (LifeStep.close (⟨0, [9], none, none, false, false⟩ : RoomLife) 9 rfl (by simp))
    simpa using this
  have h3 : ∀ n, LifeReach (⟨n, [], some idleGrace, some 0, false, false⟩ : RoomLife) := by
    intro n
    induction n with
    | zero => exact h2
    | succ k ihk => exact LifeReach.step ihk (LifeStep.tick _)
  have h4 : LifeReach (⟨idleGrace, [], none, some 0, true, false⟩ : RoomLife) := by
    have := LifeReach.step (h3 idleGrace)
      (LifeStep.fireBegin (⟨idleGrace, [], some idleGrace, some 0, false, false⟩ : RoomLife)
        idleGrace rfl rfl (Nat.le_refl _) rfl)
    simpa using this
  have h5 : LifeReach (⟨idleGrace, [5], none, none, true, false⟩ : RoomLife) := by
    have := LifeReach.step h4
      (LifeStep.connect (⟨idleGrace, [], none, some 0, true, false⟩ : RoomLife) 5 rfl)
    simpa using this
  have h6 := LifeReach.step h5
    (LifeStep.destroyFinish (⟨idleGrace, [5], none, none, true, false⟩ : RoomLife) rfl)
  simpa using h6

/-! ## C9: awareness cleanup -/

theorem tracked_monotone (sid : Nat) (tr : List AwEvent) :
    ∀ (u : AwState), AwEvent.close sid ∉ tr →
      ∀ id, id ∈ (u.index sid).getD [] → id ∈ ((awRun u tr).index sid).getD [] := by
  induction tr with
  | nil => intro u _ id h; exact h
  | cons e rest ih =>
    intro u hnc id h
    have hne : e ≠ AwEvent.close sid := fun he => hnc (he ▸ List.mem_cons_self e rest)
    have hrest : AwEvent.close sid ∉ rest := fun hm => hnc (List.mem_cons_of_mem e hm)
    have hstep : id ∈ ((awStep u e).index sid).getD [] := by
      cases e with
      | update origin a up r =>
        cases origin with
        | none => exact h
        | some o =>
          by_cases ho : sid = o
          · subst ho
            have hrw : ((awStep u (AwEvent.update (some sid) a up r)).index sid).getD []
                = (u.index sid).getD [] ++ a ++ up := by simp [awStep]
            rw [hrw]
            exact List.mem_append_left _ (List.mem_append_left _ h)
          · have hrw : ((awStep u (AwEvent.update (some o) a up r)).index sid).getD []
                = (u.index sid).getD [] := by simp [awStep, ho]
            rw [hrw]
            exact h
      | close t =>
        have ht : ¬ sid = t := fun he2 => hne (by rw [he2])
        have hrw : ((awStep u (AwEvent.close t)).index sid).getD []
            = (u.index sid).getD [] := by simp [awStep, ht]
        rw [hrw]
        exact h
    exact ih (awStep u e) hrest id hstep

theorem announced_tracked (sid : Nat) (tr : List AwEvent) :
    ∀ (u : AwState), AwEvent.close sid ∉ tr →
      ∀ id, id ∈ announcedBy sid tr → id ∈ ((awRun u tr).index sid).getD [] := by
  induction tr with
  | nil => intro u _ id h; simp [announcedBy] at h
  | cons e rest ih =>
    intro u hnc id h
    have hrest : AwEvent.close sid ∉ rest := fun hm => hnc (List.mem_cons_of_mem e hm)
    cases e with
    | update origin a up r =>
      cases origin with
      | none =>
        have h2 : id ∈ announcedBy sid rest := by simpa [announcedBy] using h
        exact ih (awStep u _) hrest id h2
      | some o =>
        by_cases ho : o = sid
        · subst ho
          have h2 : id ∈ a ++ up ++ announcedBy o rest := by simpa [announcedBy] using h
          rcases List.mem_append.mp h2 with h3 | h3
          · apply tracked_monotone o rest (awStep u _) hrest id
            have hrw : ((awStep u (AwEvent.update (some o) a up r)).index o).getD []
                = (u.index o).getD [] ++ a ++ up := by simp [awStep]
            rw [hrw]
            rcases List.mem_append.mp h3 with h4 | h4
            · exact List.mem_append_left _ (List.mem_append_right _ h4)
            · exact List.mem_append_right _ h4
          · exact ih (awStep u _) hrest id h3
        · have h2 : id ∈ announcedBy sid rest := by simpa [announcedBy, ho] using h
          exact ih (awStep u _) hrest id h2
    | close t =>
      have h2 : id ∈ announcedBy sid rest := by simpa [announcedBy] using h
      exact ih (awStep u _) hrest id h2

/-- C9: after socket `sid` of a document disconnects (and it had not
disconnected earlier in the trace), every awareness client-id that ever
arrived in the `added` or `updated` list of an update originated by
`sid` is absent from the awareness state, and `sid`'s entry in the
per-socket awareness-id index is removed. -/
theorem c9_awareness_cleanup (tr : List AwEvent) (sid : Nat)
    (hnc : AwEvent.close sid ∉ tr) :
    ∀ id ∈ announcedBy sid tr,
      id ∉ (awStep (awRun awInit tr) (AwEvent.close sid)).states ∧
      (awStep (awRun awInit tr) (AwEvent.close sid)).index sid = none := by
  intro id hid
  have htr : id ∈ ((awRun awInit tr).index sid).getD [] :=
    announced_tracked sid tr awInit hnc id hid
  constructor
  · intro hmem
    have hm2 : id ∈ (awRun awInit tr).states.filter
        (fun i => !(((awRun awInit tr).index sid).getD []).contains i) := hmem
    rw [List.mem_filter] at hm2
    have hcont := hm2.2
    simp at hcont
    exact hcont htr
  · simp [awStep]

/-- C9 witness: a concrete trace where socket 7 announced id 1 and
socket 8 announced id 2; closing 7 removes id 1 and drops 7's index
entry. -/
theorem c9_witness :
    1 ∉ (awStep (awRun awInit
        [AwEvent.update (some 7) [1] [] [], AwEvent.update (some 8) [2] [] []])
      (AwEvent.close 7)).states ∧
    (awStep (awRun awInit
        [AwEvent.update (some 7) [1] [] [], AwEvent.update (some 8) [2] [] []])
      (AwEvent.close 7)).index 7 = none := by
  exact c9_awareness_cleanup
    [AwEvent.update (some 7) [1] [] [], AwEvent.update (some 8) [2] [] []] 7
    (by decide) 1 (by decide)

/-! ## C10: persistence round-trip -/

/-- C10: `persistDoc` stores the replica encoded as a full state update
under `doc:<name>`; `loadDoc` applied to a freshly constructed replica
under the same name (with no updates in between) reproduces a replica
whose encoded state equals the persisted one (indeed the same op set),
and a missing key returns normally with the replica unchanged. -/
theorem c10_persist_roundtrip :
    (∀ (st : Store) (name : String) (d : YDoc),
       storeGet (persistDoc st name d) ("doc:" ++ name) = some (encodeStateAsUpdate d) ∧
       loadDoc (persistDoc st name d) name freshDoc = .ok d) ∧
    (∀ (st : Store) (name : String) (d : YDoc),
       storeGet st ("doc:" ++ name) = none → loadDoc st name d = .ok d) := by
  constructor
  · intro st name d
    constructor
    · simp [storeGet, storePut, persistDoc]
    · simp [loadDoc, persistDoc, storeGet, storePut, applyUpdate, freshDoc,
        encodeStateAsUpdate, Finset.sort_toFinset]
  · intro st name d h
    simp [loadDoc, h]

/-- C10 witness: the missing-key clause evaluated on the empty store. -/
theorem c10_witness :
    loadDoc [] "notes" ({1, 2} : YDoc) = .ok ({1, 2} : YDoc) := by
  exact c10_persist_roundtrip.2 [] "notes" ({1, 2} : YDoc) rfl

end LiveShare
